import Mathlib

/-!
Verification development for the JOB_HUNTER aggregation–scoring–filtering
pipeline (`streamlit_app.py`).

Shallow embedding conventions:
* Python strings are Lean `String`s; `a in b` (substring test) is `pyIn`;
  `str.lower()` is `pyLower`; `str.strip()` is `pyStrip`;
  slicing `s[:n]` is `String.take`.
* Python floats carrying match scores are modelled as exact rationals `ℚ`
  (the pipeline only adds constants, multiplies by fixed decimal weights,
  takes mins/maxes and rounds to two decimals; no claim under test depends
  on binary floating-point representation error).
* pandas DataFrames are lists of `Row` records, one per job; boolean-mask
  filtering is `List.filter`, columnwise assignment is `List.map`.
* `re.findall` is modelled by a leftmost, non-overlapping scan with a
  deterministic greedy matcher per pattern (the concrete patterns used by
  the source backtrack only in ways the matchers reproduce, see comments).
* Python `\s`, `\d`, `\w` are modelled over their ASCII ranges (the inputs
  exercised are ASCII apart from the en dash, which is in no class).
-/

set_option maxRecDepth 8192

namespace JobHunter

/-! ### String helpers -/

/-- `chStarts n h`: the char list `n` is a prefix of `h`. -/
def chStarts : List Char → List Char → Bool
  | [], _ => true
  | _ :: _, [] => false
  | a :: as, b :: bs => a == b && chStarts as bs

/-- `chSub n h`: the char list `n` occurs contiguously inside `h`. -/
def chSub : List Char → List Char → Bool
  | n, [] => n.isEmpty
  | n, c :: rest => chStarts n (c :: rest) || chSub n rest

/-- Python's `needle in hay` on strings (substring containment). -/
def pyIn (needle hay : String) : Bool :=
  chSub needle.toList hay.toList

/-- Python `\s` over ASCII: space, tab, newline, carriage return,
vertical tab, form feed. -/
def isPySpace (c : Char) : Bool :=
  c == ' ' || c == '\t' || c == '\n' || c == '\r' || c.toNat == 11 || c.toNat == 12

/-- Python's `str.lower()`.  (The core `String.toLower` is defined by
well-founded recursion over byte positions and does not reduce in the
kernel; this character-list version does.) -/
def pyLower (s : String) : String :=
  String.mk (s.data.map Char.toLower)

/-- Python's slicing `s[:n]` (by code point, as in Python). -/
def pyTake (s : String) (n : Nat) : String :=
  String.mk (s.data.take n)

/-- Python's `str.strip()`: whitespace removed from both ends. -/
def pyStrip (s : String) : String :=
  String.mk (((s.data.dropWhile isPySpace).reverse.dropWhile isPySpace).reverse)

/-! ### Source aggregator (`JobScraper.scrape_all`, lines 574-679)

A normalized job record as produced by the per-source `scrape_*` methods
(the fields the aggregation logic reads; `tags`, `salary`, `posted_date`
and `source` are carried along unreads by this stage and omitted). -/

structure SJob where
  title : String
  company : String
  location : String
  description : String
  url : String
deriving DecidableEq, Repr

/-- Keyword expansion of `scrape_all` (lines 640-647).  The Python `set`
is modelled as a duplicate-free list; only membership is consumed. -/
def expandKeywords (keywords : List String) : List String :=
  let keywordsLower := keywords.map pyLower
  let extra := keywordsLower.flatMap (fun kw =>
    (if pyIn "social media" kw then
      ["social", "media", "content", "marketing", "community", "digital"] else []) ++
    (if pyIn "data" kw then
      ["data", "analyst", "analytics", "scientist", "engineer"] else []) ++
    (if pyIn "developer" kw || pyIn "engineer" kw then
      ["developer", "engineer", "software", "frontend", "backend", "fullstack"] else []))
  (keywordsLower ++ extra).eraseDups

/-- One job survives the keyword relevance pre-filter (lines 649-656):
some expanded keyword is a substring of `title + ' ' + description[:500]`,
everything lowercased. -/
def keywordSurvives (expanded : List String) (j : SJob) : Bool :=
  let combined := pyLower j.title ++ " " ++ pyTake (pyLower j.description) 500
  expanded.any (fun kw => pyIn kw combined)

/-- The keyword relevance pre-filter of `scrape_all` (lines 636-659). -/
def keywordFilter (keywords : List String) (jobs : List SJob) : List SJob :=
  jobs.filter (keywordSurvives (expandKeywords keywords))

/-- Dedup identity key (line 670): lowercased title, an underscore, then
the lowercased company. -/
def dedupKey (j : SJob) : String :=
  pyLower j.title ++ "_" ++ pyLower j.company

/-- The dedup loop of `scrape_all` (lines 665-675): a job is kept only if
its url is truthy (non-empty), unseen, and its title+company key is unseen;
both seen-sets (modelled as lists) grow only on keep. -/
def dedupGo : List SJob → List String → List String → List SJob
  | [], _, _ => []
  | j :: rest, seenUrls, seenKeys =>
    if j.url ≠ "" ∧ j.url ∉ seenUrls ∧ dedupKey j ∉ seenKeys then
      j :: dedupGo rest (j.url :: seenUrls) (dedupKey j :: seenKeys)
    else
      dedupGo rest seenUrls seenKeys

/-- Duplicate removal of `scrape_all` (lines 664-679). -/
def dedupJobs (jobs : List SJob) : List SJob :=
  dedupGo jobs [] []

/-- The outcome of each per-source fetch body (the code inside each
`scrape_*` method's `try:`): either a normalized record list, or any
raised error (network, parse, timeout, missing library), abstracted as a
message.  The `except` clause of every `scrape_*` method returns `[]`. -/
structure SourceOutcomes where
  jobspy : Except String (List SJob)
  remoteok : Except String (List SJob)
  remotive : Except String (List SJob)
  jobicy : Except String (List SJob)
  arbeitnow : Except String (List SJob)
  himalayas : Except String (List SJob)
  wwr : Except String (List SJob)

/-- The per-source `try/except` wrapper: a failing source yields `[]`. -/
def wrapFetch : Except String (List SJob) → List SJob
  | .ok l => l
  | .error _ => []

/-- `JobScraper.scrape_all` (lines 574-679): concatenate the seven wrapped
source fetches in their fixed order, apply the keyword relevance
pre-filter when keywords were given (`if keywords:`), then dedup.
Progress callbacks and print logging are observational only and omitted. -/
def scrapeAll (keywords : List String) (src : SourceOutcomes) : List SJob :=
  let allJobs := wrapFetch src.jobspy ++ wrapFetch src.remoteok ++ wrapFetch src.remotive ++
    wrapFetch src.jobicy ++ wrapFetch src.arbeitnow ++ wrapFetch src.himalayas ++
    wrapFetch src.wwr
  let allJobs := if keywords.isEmpty then allJobs else keywordFilter keywords allJobs
  dedupJobs allJobs

/-- The concatenation of exactly the successful sources' results, a failed
source contributing the empty list (the spec's merge). -/
def successMerge (src : SourceOutcomes) : List SJob :=
  (src.jobspy.toOption.getD []) ++ (src.remoteok.toOption.getD []) ++
  (src.remotive.toOption.getD []) ++ (src.jobicy.toOption.getD []) ++
  (src.arbeitnow.toOption.getD []) ++ (src.himalayas.toOption.getD []) ++
  (src.wwr.toOption.getD [])

/-! ### CV parser (`EnhancedCVParser`, lines 175-359) -/

/-- The fixed skill taxonomy `skill_database` (lines 180-253),
category by category in source order. -/
def skillDatabase : List (String × List String) := [
  ("social_media", [
    "instagram", "facebook", "twitter", "tiktok", "linkedin", "youtube",
    "snapchat", "pinterest", "social media management", "content creation",
    "content strategy", "community management", "social media marketing",
    "social media analytics", "engagement", "brand awareness", "influencer marketing",
    "social media advertising", "paid social", "organic social", "hashtag strategy",
    "social listening", "crisis management", "brand voice", "copywriting",
    "content calendar", "scheduling", "hootsuite", "buffer", "sprout social",
    "later", "meta business suite", "facebook ads manager", "instagram insights",
    "twitter analytics", "tiktok analytics", "canva", "adobe creative suite",
    "photoshop", "illustrator", "video editing", "premiere pro", "final cut",
    "capcut", "seo", "sem", "google analytics", "social media reporting",
    "kpi tracking", "roi analysis", "a/b testing", "audience insights",
    "social media strategy", "brand management", "reputation management"]),
  ("data_science", [
    "python", "r", "sql", "java", "scala", "javascript", "c++",
    "machine learning", "deep learning", "neural networks", "ai", "artificial intelligence",
    "natural language processing", "nlp", "computer vision", "cv",
    "data analysis", "data science", "statistics", "probability",
    "tensorflow", "pytorch", "keras", "scikit-learn", "sklearn",
    "pandas", "numpy", "scipy", "matplotlib", "seaborn", "plotly",
    "jupyter", "apache spark", "hadoop", "big data", "etl",
    "aws", "azure", "gcp", "google cloud", "cloud computing",
    "docker", "kubernetes", "mlops", "model deployment",
    "tableau", "power bi", "git", "github", "agile", "scrum"]),
  ("engineering", [
    "software engineering", "web development", "frontend", "backend", "full stack",
    "react", "angular", "vue", "node.js", "express", "django", "flask", "fastapi",
    "typescript", "html", "css", "sass", "tailwind", "bootstrap",
    "mongodb", "postgresql", "mysql", "redis", "graphql", "rest api",
    "ci/cd", "jenkins", "terraform", "ansible", "linux", "devops",
    "microservices", "system design", "architecture", "testing", "unit testing"]),
  ("design", [
    "ui design", "ux design", "user research", "wireframing", "prototyping",
    "figma", "sketch", "adobe xd", "invision", "zeplin",
    "graphic design", "visual design", "branding", "typography", "color theory",
    "motion graphics", "animation", "after effects", "blender", "3d modeling",
    "product design", "design systems", "accessibility", "responsive design"]),
  ("business", [
    "sales", "business development", "account management", "client relations",
    "negotiation", "crm", "salesforce", "hubspot", "pipedrive",
    "strategy", "consulting", "market research", "competitive analysis",
    "financial analysis", "budgeting", "forecasting", "excel", "powerpoint",
    "operations", "supply chain", "logistics", "procurement", "vendor management"]),
  ("hr_admin", [
    "recruiting", "talent acquisition", "onboarding", "hr management",
    "payroll", "benefits administration", "employee relations", "performance management",
    "administrative", "executive assistant", "office management", "scheduling",
    "bookkeeping", "quickbooks", "invoicing", "data entry", "virtual assistant"]),
  ("writing", [
    "content writing", "technical writing", "blog writing", "article writing",
    "editing", "proofreading", "journalism", "storytelling", "creative writing",
    "grant writing", "proposal writing", "documentation", "translation"]),
  ("customer_service", [
    "customer support", "customer service", "help desk", "technical support",
    "live chat", "zendesk", "intercom", "freshdesk", "ticketing",
    "conflict resolution", "customer success", "account management", "retention"]),
  ("soft_skills", [
    "communication", "teamwork", "leadership", "project management",
    "problem solving", "critical thinking", "creativity", "collaboration",
    "time management", "organization", "adaptability", "remote work",
    "agile", "scrum", "cross-functional", "stakeholder management",
    "presentation", "writing", "research", "analytical", "attention to detail"])]

/-- The extra programming-language token list (line 292). -/
def progLangs : List String :=
  ["python", "java", "javascript", "r", "sql", "scala", "c++", "c#"]

/-- `EnhancedCVParser.extract_comprehensive_skills` (lines 278-297): a skill
is reported iff it is a raw substring of the lowercased text.  The Python
`set` result is modelled as a duplicate-free list; only membership is
consumed downstream. -/
def extractComprehensiveSkills (text : String) : List String :=
  let textLower := pyLower text
  let allSkills := skillDatabase.flatMap Prod.snd
  ((allSkills.filter (fun skill => pyIn skill textLower)) ++
   (progLangs.filter (fun lang => pyIn lang textLower))).eraseDups

/-! ### Years-of-experience extraction
(`EnhancedCVParser._extract_years_experience`, lines 318-344)

Each of the four regular expressions of the source is embedded as a
deterministic matcher `List Char → Option (group × rest)` that attempts a
match anchored at the head of its input and, on success, returns the
captured value and the unconsumed suffix.  `re.findall` is the standard
leftmost non-overlapping scan over these matchers.  The patterns are
effectively backtrack-free: every quantifier is followed by a literal that
cannot extend the quantified class, so greedy maximal munch coincides with
the regex semantics (the one subtlety, `years?` followed by `\s+`, is
harmless because `s` is not whitespace, and `(?:of\s+)?` is tried
greedily-first exactly as the engine does). -/

/-- Consume an exact literal. -/
def eatLit (lit : List Char) (cs : List Char) : Option (List Char) :=
  if chStarts lit cs then some (cs.drop lit.length) else none

/-- Numeric value of a scanned digit run (`int(m)`). -/
def digitsToInt (ds : List Char) : Int :=
  Int.ofNat (ds.foldl (fun n c => n * 10 + (c.toNat - 48)) 0)

/-- Matcher for `(\d+)\+?\s*years?\s+(?:of\s+)?experience` (line 323). -/
def matchP1 (cs : List Char) : Option (Int × List Char) :=
  let ds := cs.takeWhile Char.isDigit
  if ds.isEmpty then none else
  let r1 := cs.drop ds.length
  let r2 := match r1 with | '+' :: t => t | _ => r1
  let r3 := r2.dropWhile isPySpace
  match eatLit "year".toList r3 with
  | none => none
  | some r4 =>
    let r5 := match r4 with | 's' :: t => t | _ => r4
    let ws := r5.takeWhile isPySpace
    if ws.isEmpty then none else
    let r6 := r5.drop ws.length
    let withOf : Option (List Char) :=
      match eatLit "of".toList r6 with
      | some r7 =>
        let ws2 := r7.takeWhile isPySpace
        if ws2.isEmpty then none else eatLit "experience".toList (r7.drop ws2.length)
      | none => none
    match withOf with
    | some rest => some (digitsToInt ds, rest)
    | none =>
      match eatLit "experience".toList r6 with
      | some rest => some (digitsToInt ds, rest)
      | none => none

/-- Matcher for `experience[:\s]+(\d+)\+?\s*years?` (line 324). -/
def matchP2 (cs : List Char) : Option (Int × List Char) :=
  match eatLit "experience".toList cs with
  | none => none
  | some r1 =>
    let seps := r1.takeWhile (fun c => c == ':' || isPySpace c)
    if seps.isEmpty then none else
    let r2 := r1.drop seps.length
    let ds := r2.takeWhile Char.isDigit
    if ds.isEmpty then none else
    let r3 := r2.drop ds.length
    let r4 := match r3 with | '+' :: t => t | _ => r3
    let r5 := r4.dropWhile isPySpace
    match eatLit "year".toList r5 with
    | none => none
    | some r6 =>
      let r7 := match r6 with | 's' :: t => t | _ => r6
      some (digitsToInt ds, r7)

/-- Matcher for `(\d+)\+?\s*years?\s+(?:in|working|as)` (line 325). -/
def matchP3 (cs : List Char) : Option (Int × List Char) :=
  let ds := cs.takeWhile Char.isDigit
  if ds.isEmpty then none else
  let r1 := cs.drop ds.length
  let r2 := match r1 with | '+' :: t => t | _ => r1
  let r3 := r2.dropWhile isPySpace
  match eatLit "year".toList r3 with
  | none => none
  | some r4 =>
    let r5 := match r4 with | 's' :: t => t | _ => r4
    let ws := r5.takeWhile isPySpace
    if ws.isEmpty then none else
    let r6 := r5.drop ws.length
    match eatLit "in".toList r6 with
    | some rest => some (digitsToInt ds, rest)
    | none =>
      match eatLit "working".toList r6 with
      | some rest => some (digitsToInt ds, rest)
      | none =>
        match eatLit "as".toList r6 with
        | some rest => some (digitsToInt ds, rest)
        | none => none

/-- A four-digit year of the shape `20\d{2}` or `19\d{2}`. -/
def matchYear4 (cs : List Char) : Option (Int × List Char) :=
  match cs with
  | a :: b :: c :: d :: rest =>
    if ((a == '2' && b == '0') || (a == '1' && b == '9')) && c.isDigit && d.isDigit then
      some (digitsToInt [a, b, c, d], rest)
    else none
  | _ => none

/-- Matcher for
`(20\d{2}|19\d{2})\s*[-–—]\s*(20\d{2}|19\d{2}|present|current)` (line 333),
with `present`/`current` already resolved to the fixed reference year 2026
(line 340). -/
def matchDateRange (cs : List Char) : Option ((Int × Int) × List Char) :=
  match matchYear4 cs with
  | none => none
  | some (y1, r1) =>
    let r2 := r1.dropWhile isPySpace
    match r2 with
    | [] => none
    | d :: r3 =>
      if d == '-' || d == '–' || d == '—' then
        let r4 := r3.dropWhile isPySpace
        match matchYear4 r4 with
        | some (y2, r5) => some ((y1, y2), r5)
        | none =>
          match eatLit "present".toList r4 with
          | some r5 => some ((y1, 2026), r5)
          | none =>
            match eatLit "current".toList r4 with
            | some r5 => some ((y1, 2026), r5)
            | none => none
      else none

/-- Leftmost non-overlapping scan (`re.findall`): try the matcher at every
position, consuming a successful match's text before continuing.  All the
matchers above consume at least one character on success; the fuel (an
upper bound on remaining positions) only discharges termination. -/
def findAllAux {α : Type} (m : List Char → Option (α × List Char)) :
    Nat → List Char → List α
  | 0, _ => []
  | _, [] => []
  | fuel + 1, cs@(_ :: rest) =>
    match m cs with
    | some (a, afterMatch) => a :: findAllAux m fuel afterMatch
    | none => findAllAux m fuel rest

/-- `re.findall(pattern, text)` for one of the embedded matchers. -/
def findAllMatches {α : Type} (m : List Char → Option (α × List Char))
    (cs : List Char) : List α :=
  findAllAux m (cs.length + 1) cs

/-- Python `max` over a non-empty list of ints. -/
def maxList : List Int → Int
  | [] => 0
  | x :: xs => xs.foldl max x

/-- `EnhancedCVParser._extract_years_experience` (lines 318-344), statement
by statement: `years = 0`; for each of the three explicit patterns, if it
has matches, `years = max(years, max(matches))`; then if date ranges were
found, `years = max(years, sum(end - start))`. -/
def extractYearsExperience (text : String) : Int :=
  let tl := (pyLower text).toList
  let years : Int := 0
  let m1 := findAllMatches matchP1 tl
  let years := if m1.isEmpty then years else max years (maxList m1)
  let m2 := findAllMatches matchP2 tl
  let years := if m2.isEmpty then years else max years (maxList m2)
  let m3 := findAllMatches matchP3 tl
  let years := if m3.isEmpty then years else max years (maxList m3)
  let ranges := findAllMatches matchDateRange tl
  let years := if ranges.isEmpty then years else
    max years (ranges.foldl (fun acc p => acc + (p.2 - p.1)) 0)
  years

/-- Clause (a) of the spec's formula: the largest `N` over all matches of
the three explicit patterns (`0` when none match). -/
def yearsClauseA (text : String) : Int :=
  let tl := (pyLower text).toList
  (findAllMatches matchP1 tl ++ findAllMatches matchP2 tl ++
   findAllMatches matchP3 tl).foldl max 0

/-- Clause (b) of the spec's formula: the sum of `end - start` over all
date ranges found in the text. -/
def yearsClauseB (text : String) : Int :=
  (findAllMatches matchDateRange (pyLower text).toList).foldl
    (fun acc p => acc + (p.2 - p.1)) 0

/-! ### Relevance scorer (`JobMatcher`, lines 685-829)

The TF-IDF cosine similarity (lines 754-759) is computed by an external
library (scikit-learn) over the two-document corpus; it enters `match_job`
as a single number, so the embedding takes it as an explicit parameter
`tfidf` (the score `tfidf_score`, already scaled by 100 as in line 757).
Everything after that line is embedded from the source. -/

/-- The CV-side profile fields that `JobMatcher` reads. -/
structure CVData where
  skills : List String
  fullText : String
  yearsExperience : Int
deriving DecidableEq, Repr

/-- The job fields that `JobMatcher.match_job` reads. -/
structure MJob where
  title : String
  description : String
deriving DecidableEq, Repr

/-- `self.cv_text` (lines 690-693):
`" ".join([" ".join(skills), full_text[:3000]]).lower()`. -/
def cvTextOf (cv : CVData) : String :=
  pyLower (String.intercalate " " [String.intercalate " " cv.skills, pyTake cv.fullText 3000])

/-- `job_text` of `match_job` (lines 749-751): lowercased title doubled,
plus the lowercased first 1500 characters of the description. -/
def jobTextOf (job : MJob) : String :=
  let title := pyLower job.title
  title ++ " " ++ title ++ " " ++ pyLower (pyTake job.description 1500)

/-- `self.skill_synonyms` (lines 725-738). -/
def skillSynonyms : List (String × List String) := [
  ("python", ["programming", "coding", "development"]),
  ("javascript", ["js", "frontend", "web development"]),
  ("react", ["frontend", "ui development", "web app"]),
  ("sql", ["database", "data", "queries"]),
  ("excel", ["spreadsheet", "data analysis", "reporting"]),
  ("canva", ["graphic design", "visual design", "design tools"]),
  ("figma", ["ui design", "ux design", "prototyping"]),
  ("social media", ["smm", "social marketing", "digital marketing"]),
  ("content creation", ["content writing", "copywriting", "storytelling"]),
  ("customer service", ["customer support", "help desk", "client support"]),
  ("project management", ["pm", "coordination", "planning"]),
  ("analytics", ["data analysis", "reporting", "insights", "metrics"])]

/-- Synonyms of one skill (empty when the skill is not in the table). -/
def synLookup (s : String) : List String :=
  ((skillSynonyms.find? (fun p => p.1 == s)).map Prod.snd).getD []

/-- `JobMatcher.expand_skills` (lines 740-746); the Python `set` is a
duplicate-free list (only membership count is consumed). -/
def expandSkills (skills : List String) : List String :=
  (skills ++ skills.flatMap synLookup).eraseDups

/-- `cv_skills = set(s.lower() for s in skills)` (line 762). -/
def cvSkillsOf (cv : CVData) : List String :=
  (cv.skills.map pyLower).eraseDups

/-- `skill_matches` (line 764): how many expanded skills are substrings of
the job text. -/
def skillMatchesOf (cv : CVData) (job : MJob) : Nat :=
  ((expandSkills (cvSkillsOf cv)).filter (fun s => pyIn s (jobTextOf job))).length

/-- `skill_score = min((skill_matches / max(len(cv_skills), 1)) * 150, 100)`
(line 765). -/
def skillScoreOf (cv : CVData) (job : MJob) : ℚ :=
  min ((skillMatchesOf cv job : ℚ) / (max (cvSkillsOf cv).length 1 : ℕ) * 150) 100

/-- `self.adjacent_roles` (lines 698-722). -/
def adjacentRoles : List (String × List String) := [
  ("social media", ["content creator", "community manager", "brand strategist",
    "digital marketer", "marketing coordinator", "influencer"]),
  ("content", ["copywriter", "writer", "blogger", "editor", "content strategist"]),
  ("marketing", ["growth", "campaign manager", "brand coordinator", "seo"]),
  ("software", ["developer", "engineer", "programmer", "full stack", "backend", "frontend"]),
  ("python", ["data scientist", "machine learning", "backend", "automation"]),
  ("javascript", ["frontend", "react", "node", "web developer", "full stack"]),
  ("data", ["analyst", "scientist", "bi", "reporting", "insights", "analytics"]),
  ("design", ["ui", "ux", "graphic", "visual", "product designer", "creative"]),
  ("figma", ["ui designer", "ux designer", "product designer", "visual designer"]),
  ("sales", ["business development", "account executive", "account manager", "bdm"]),
  ("account", ["customer success", "client relations", "account manager"]),
  ("customer", ["support", "service", "help desk", "success", "chat"]),
  ("admin", ["assistant", "coordinator", "office manager", "executive assistant"]),
  ("virtual assistant", ["admin", "data entry", "scheduling", "bookkeeping"]),
  ("recruiting", ["talent acquisition", "hr", "sourcer", "recruiter"]),
  ("hr", ["people operations", "talent", "employee relations"])]

/-- `adjacency_bonus` (lines 768-774): +15 per category whose seed occurs
in the CV text and at least one adjacent role occurs in the job text (the
inner `break` makes it at most one +15 per category). -/
def adjacencyBonusOf (cv : CVData) (job : MJob) : ℚ :=
  15 * ((adjacentRoles.filter (fun p =>
    pyIn p.1 (cvTextOf cv) && p.2.any (fun adj => pyIn adj (jobTextOf job)))).length : ℕ)

/-- `important_keywords` (lines 778-782). -/
def importantKeywords : List String :=
  ["manager", "coordinator", "specialist", "analyst", "developer", "engineer",
   "designer", "assistant", "associate", "consultant", "administrator",
   "marketing", "sales", "support", "content", "data", "software", "product"]

/-- `title_bonus` (lines 777-785): +8 per important keyword occurring in
both the CV text and the lowercased job title. -/
def titleBonusOf (cv : CVData) (job : MJob) : ℚ :=
  8 * ((importantKeywords.filter (fun kw =>
    pyIn kw (cvTextOf cv) && pyIn kw (pyLower job.title))).length : ℕ)

/-- `entry_keywords` (line 789). -/
def entryKeywords : List String :=
  ["junior", "associate", "assistant", "coordinator", "entry", "intern", "specialist"]

/-- `senior_keywords` (line 790). -/
def seniorKeywords : List String :=
  ["senior", "lead", "head", "director", "manager", "principal"]

/-- `is_entry` (line 792): some entry keyword is a substring of the
lowercased title. -/
def isEntryB (title : String) : Bool :=
  entryKeywords.any (fun kw => pyIn kw title)

/-- `is_senior` (line 793). -/
def isSeniorB (title : String) : Bool :=
  seniorKeywords.any (fun kw => pyIn kw title)

/-- The experience multiplier ladder (lines 795-802), branch for branch. -/
def expMultiplierOf (title : String) (years : Int) : ℚ :=
  if isSeniorB title && decide (years < 3) then 0.7
  else if isEntryB title && decide (1 ≤ years) && decide (years ≤ 3) then 1.2
  else if !isSeniorB title && decide (1 ≤ years) && decide (years ≤ 4) then 1.1
  else 1

/-- `base_score` (lines 805-810). -/
def baseScoreOf (cv : CVData) (tfidf : ℚ) (job : MJob) : ℚ :=
  tfidf * 0.35 + skillScoreOf cv job * 0.40 + adjacencyBonusOf cv job + titleBonusOf cv job

/-- Python's `round(x, 2)`, modelled as round-half-up on exact rationals
(Python rounds half to even on binary floats; the two differ only on exact
half-cent values, which no claim under test exercises). -/
def round2 (q : ℚ) : ℚ :=
  ((⌊q * 100 + 0.5⌋ : ℤ) : ℚ) / 100

/-- `JobMatcher.match_job`'s final score (line 812):
`round(min(base_score * exp_multiplier, 100), 2)`. -/
def matchScore (cv : CVData) (tfidf : ℚ) (job : MJob) : ℚ :=
  round2 (min (baseScoreOf cv tfidf job * expMultiplierOf (pyLower job.title) cv.yearsExperience) 100)

/-! ### A validity checker for the regex patterns the filter builds

`JobFilter.apply_all_filters` hands user-controlled keyword text to
`Series.str.contains(..., regex=True)`, which compiles it with CPython's
`re` module and raises `re.error` on an invalid pattern.  The checker
below models `re` pattern validity for the constructs reachable from
keyword text (literals, escapes, classes, groups, alternation and the
quantifiers `+ * ? {m,n}`), per CPython's `sre_parse` (< 3.11, before
possessive quantifiers): a quantifier may not follow another quantifier
("multiple repeat"), nor stand at the start of a branch or after a
zero-width assertion such as `\b` ("nothing to repeat"); a lone `?` after
a quantifier is its lazy modifier.  Extension groups `(?...)` are not
modelled (they do not arise from keyword text). -/

/-- What the previous parsed element was. -/
inductive RPrev
  | start
  | atomP
  | repP
  | lazyP
  | assertP
  | openP
  | altP
deriving DecidableEq

/-- Scan a character class body (after any leading `^` / literal `]`)
up to its closing `]`; `none` when unterminated. -/
def scanClassBody : List Char → Option (List Char)
  | [] => none
  | ']' :: rest => some rest
  | '\\' :: [] => none
  | '\\' :: _ :: rest => scanClassBody rest
  | _ :: rest => scanClassBody rest

/-- Scan a character class, starting right after its `[`. -/
def scanClassStart (cs : List Char) : Option (List Char) :=
  let cs1 := match cs with | '^' :: t => t | _ => cs
  let cs2 := match cs1 with | ']' :: t => t | _ => cs1
  scanClassBody cs2

/-- Scan a `{m}` / `{m,}` / `{m,n}` / `{,n}` quantifier body, starting
right after its `{`; `none` when the braces do not form a quantifier
(then `re` treats the `{` as a literal). -/
def scanBrace (cs : List Char) : Option (List Char) :=
  let d1 := cs.takeWhile Char.isDigit
  match cs.drop d1.length with
  | '}' :: rest => if d1.isEmpty then none else some rest
  | ',' :: r2 =>
    let d2 := r2.takeWhile Char.isDigit
    (match r2.drop d2.length with
     | '}' :: rest => if d1.isEmpty && d2.isEmpty then none else some rest
     | _ => none)
  | _ => none

/-- One pass over the pattern, tracking the previous element and the open
group depth.  The fuel bounds the number of consumed characters. -/
def regexScanAux : Nat → List Char → RPrev → Nat → Bool
  | 0, _, _, _ => false
  | _ + 1, [], _, depth => depth == 0
  | fuel + 1, c :: rest, prev, depth =>
    if c == '+' || c == '*' then
      prev == .atomP && regexScanAux fuel rest .repP depth
    else if c == '?' then
      if prev == .atomP then regexScanAux fuel rest .repP depth
      else if prev == .repP then regexScanAux fuel rest .lazyP depth
      else false
    else if c == '{' then
      match scanBrace rest with
      | some rest' => prev == .atomP && regexScanAux fuel rest' .repP depth
      | none => regexScanAux fuel rest .atomP depth
    else if c == '(' then regexScanAux fuel rest .openP (depth + 1)
    else if c == ')' then depth != 0 && regexScanAux fuel rest .atomP (depth - 1)
    else if c == '|' then regexScanAux fuel rest .altP depth
    else if c == '[' then
      match scanClassStart rest with
      | some rest' => regexScanAux fuel rest' .atomP depth
      | none => false
    else if c == '\\' then
      match rest with
      | [] => false
      | e :: rest' =>
        if e == 'b' || e == 'B' || e == 'A' || e == 'Z' then
          regexScanAux fuel rest' .assertP depth
        else regexScanAux fuel rest' .atomP depth
    else regexScanAux fuel rest .atomP depth

/-- Whether `re.compile(pattern)` succeeds. -/
def pyRegexValid (pattern : String) : Bool :=
  regexScanAux (pattern.length + 1) pattern.toList .start 0

/-! ### Result filter/ranker (`JobFilter.apply_all_filters`, lines 855-950)

One DataFrame row.  `score` is the `Match Score` column; `daysAgo` is the
computed `days_ago` column, i.e. `(now - parse_date(Posted)).days` — date
parsing happens through the external `datetime` machinery
(`JobFilter.parse_date`), so the embedding carries the resulting day count
directly (missing or unparseable dates give `days_ago = 0`). -/

structure Row where
  title : String
  company : String
  location : String
  description : String
  url : String
  score : ℚ
  daysAgo : Int
deriving DecidableEq, Repr

/-- Python `\w` over ASCII. -/
def isWordChar (c : Char) : Bool :=
  c.isAlphanum || c == '_'

/-- `\b` between two adjacent characters (absent = outside the string). -/
def wordB (a b : Option Char) : Bool :=
  (a.map isWordChar).getD false != (b.map isWordChar).getD false

/-- Search for an occurrence of the literal `kw` flanked by `\b` word
boundaries (the semantics of `re.search(r'\b' + kw + r'\b', hay)` for a
keyword without regex metacharacters), tracking the previous character. -/
def wordOccurAux (kw : List Char) : Option Char → List Char → Bool
  | _, [] => false
  | prev, c :: rest =>
    (chStarts kw (c :: rest) && wordB prev (some c) &&
      wordB kw.getLast? ((c :: rest).drop kw.length).head?) ||
    wordOccurAux kw (some c) rest

/-- Whole-word containment of a literal keyword. -/
def containsWordKw (kw : String) (hay : String) : Bool :=
  wordOccurAux kw.toList none hay.toList

/-- KEYWORD RELEVANCE BOOST stage (lines 859-874): +15 where the title
matches the search pattern, +10 where only the description does, then all
scores are capped at 100.  The pattern is the `|`-join of the stripped,
lowercased keywords; `str.contains` compiles it and raises on an invalid
pattern, hence the `Except`.  Matching is modelled as substring search per
alternative (exact for metacharacter-free keywords, the only kind the
claims exercise). -/
def boostStage (searchKeywords : Option (List String)) (rows : List Row) :
    Except String (List Row) :=
  match searchKeywords with
  | none => .ok rows
  | some kws =>
    let pats := (kws.map (fun k => pyLower (pyStrip k))).filter (fun k => k ≠ "")
    if pats.isEmpty then .ok rows
    else if pyRegexValid (String.intercalate "|" pats) then
      .ok (rows.map (fun r =>
        let titleM := pats.any (fun p => pyIn p (pyLower r.title))
        let descM := pats.any (fun p => pyIn p (pyLower r.description))
        let s := if titleM then r.score + 15 else if descM then r.score + 10 else r.score
        { r with score := min s 100 }))
    else .error "re.error: invalid search pattern"

/-- Exclude-keywords stage (lines 877-884): for each non-blank stripped,
lowercased keyword, drop rows whose lowercased title matches
`r'\b' + kw + r'\b'`; the pattern is built from the raw keyword without
`re.escape`, so compilation can fail. -/
def excludeStage : List String → List Row → Except String (List Row)
  | [], rows => .ok rows
  | kw0 :: rest, rows =>
    let kw := pyLower (pyStrip kw0)
    if kw = "" then excludeStage rest rows
    else if pyRegexValid ("\\b" ++ kw ++ "\\b") then
      excludeStage rest (rows.filter (fun r => !containsWordKw kw (pyLower r.title)))
    else .error "re.error: invalid exclude pattern"

/-- Recency stage (lines 887-892): keep rows at most `maxDays` old, and
relax the cutoff to 45 days when fewer than 20 survive. -/
def recencyStage (maxDays : Int) (rows : List Row) : List Row :=
  let f := rows.filter (fun r => decide (r.daysAgo ≤ maxDays))
  if f.length < 20 then rows.filter (fun r => decide (r.daysAgo ≤ 45)) else f

/-- Stable insertion into a score-descending list (equal scores keep the
inserted — earlier — element first). -/
def insertDesc (r : Row) : List Row → List Row
  | [] => [r]
  | x :: xs => if x.score > r.score then x :: insertDesc r xs else r :: x :: xs

/-- Stable descending sort by `score` (`sort_values('Match Score',
ascending=False)`; also the row order `nlargest` produces).  pandas'
default `kind='quicksort'` does not promise stable ties; the embedding
fixes the stable representative, which only pins down what the library
leaves unspecified. -/
def sortByScoreDesc : List Row → List Row
  | [] => []
  | r :: rs => insertDesc r (sortByScoreDesc rs)

/-- `filtered.nlargest(n, 'Match Score')` (line 904): the `n` largest by
score, ties resolved to first occurrence (`keep='first'`). -/
def nlargestRows (n : Nat) (rows : List Row) : List Row :=
  (sortByScoreDesc rows).take n

/-- Score threshold with progressive fallback (lines 894-905). -/
def cascadeStage (minScore : ℚ) (rows : List Row) : List Row :=
  let s1 := rows.filter (fun r => decide (minScore ≤ r.score))
  if 5 ≤ s1.length then s1 else
  let s2 := rows.filter (fun r => decide (max (minScore - 20) 20 ≤ r.score))
  if 5 ≤ s2.length then s2 else
  let s3 := rows.filter (fun r => decide ((10 : ℚ) ≤ r.score))
  if 5 ≤ s3.length then s3 else
  nlargestRows (min 20 rows.length) rows

/-- `us_state_pattern` codes (line 913). -/
def usStateCodes : List String :=
  ["al", "ak", "az", "ar", "ca", "co", "ct", "de", "fl", "ga", "hi", "id", "il",
   "in", "ia", "ks", "ky", "la", "me", "md", "ma", "mi", "mn", "ms", "mo", "mt",
   "ne", "nv", "nh", "nj", "nm", "ny", "nc", "nd", "oh", "ok", "or", "pa", "ri",
   "sc", "sd", "tn", "tx", "ut", "vt", "va", "wa", "wv", "wi", "wy", "dc"]

/-- Some state code is a prefix of `cs` and is followed by a `\b`
boundary (end of string or a non-word character). -/
def stateCodeAt (cs : List Char) : Bool :=
  usStateCodes.any (fun code =>
    chStarts code.toList cs &&
      (match (cs.drop code.toList.length).head? with
       | none => true
       | some c => !isWordChar c))

/-- Containment of `,\s*(al|ak|…|dc)\b` (line 913-914). -/
def usCityScan : List Char → Bool
  | [] => false
  | ',' :: rest => stateCodeAt (rest.dropWhile isPySpace) || usCityScan rest
  | _ :: rest => usCityScan rest

/-- A match of `\b(united states|usa|u\.s\.a|u\.s\b)` anchored at `cs`
(`prev` is the preceding character for the leading `\b`; every
alternative starts with the word character `u`). -/
def usCountryAt (prev : Option Char) (cs : List Char) : Bool :=
  !(prev.map isWordChar).getD false &&
  (chStarts "united states".toList cs || chStarts "usa".toList cs ||
   chStarts "u.s.a".toList cs ||
   (chStarts "u.s".toList cs &&
     (match (cs.drop 3).head? with
      | none => true
      | some c => !isWordChar c)))

/-- Containment scan for the US-country pattern (lines 917-918). -/
def usCountryScan : Option Char → List Char → Bool
  | _, [] => false
  | prev, c :: rest => usCountryAt prev (c :: rest) || usCountryScan (some c) rest

/-- `worldwide_keywords` (line 921). -/
def worldwideKeywords : List String :=
  ["anywhere", "worldwide", "global", "international", "emea", "apac", "latam",
   "europe", "africa", "asia"]

/-- `usa_keywords` of the USA-only branch (line 937); plain substring
containment (the joined pattern has no boundary anchors). -/
def usaTerms : List String :=
  ["usa", "us", "united states", "america"]

/-- The preference strings routed to the worldwide branch (line 911). -/
def worldwideNames : List String :=
  ["Worldwide Remote (Anywhere)", "Worldwide (Anywhere)"]

/-- The preference strings routed to the USA-only branch (line 935). -/
def usaNames : List String :=
  ["USA Remote Only", "USA Only"]

/-- Location-scope stage (lines 907-942).  Worldwide branch: +30 to rows
whose lowercased location names a global scope or is exactly `remote`
after stripping, −40 to rows matching the US city/country patterns and
not the worldwide one.  USA branch: restrict to rows whose location
mentions a USA term, but only when at least 5 such rows exist.  Any other
preference leaves the rows untouched. -/
def locationStage (remoteType : String) (rows : List Row) : List Row :=
  if worldwideNames.contains remoteType then
    rows.map (fun r =>
      let lt := pyLower r.location
      let isWorldwide := worldwideKeywords.any (fun k => pyIn k lt)
      let isJustRemote := pyStrip lt == "remote"
      let isUSSpecific := (usCityScan lt.toList || usCountryScan none lt.toList) && !isWorldwide
      { r with score := r.score + (if isWorldwide || isJustRemote then 30 else 0)
                          - (if isUSSpecific then 40 else 0) })
  else if usaNames.contains remoteType then
    if 5 ≤ (rows.filter (fun r =>
        usaTerms.any (fun t => pyIn t (pyLower r.location)))).length then
      rows.filter (fun r => usaTerms.any (fun t => pyIn t (pyLower r.location)))
    else rows
  else rows

/-- Final upper clamp and descending sort (lines 944-948). -/
def finalizeStage (rows : List Row) : List Row :=
  sortByScoreDesc (rows.map (fun r => { r with score := min r.score 100 }))

/-- `JobFilter.apply_all_filters` (lines 855-950): early return on an
empty frame, then the six stages in source order.  A `re.error` raised by
an invalid keyword pattern propagates to the caller as `.error`. -/
def applyAllFilters (remoteType : String) (rows : List Row) (maxDays : Int)
    (minScore : ℚ) (excludeKeywords : List String)
    (searchKeywords : Option (List String)) : Except String (List Row) :=
  if rows.isEmpty then .ok rows
  else
    match boostStage searchKeywords rows with
    | .error e => .error e
    | .ok r1 =>
      match excludeStage excludeKeywords r1 with
      | .error e => .error e
      | .ok r2 =>
        .ok (finalizeStage (locationStage remoteType
          (cascadeStage minScore (recencyStage maxDays r2))))

/-! ### Definitions transcribed from the spec's words, for comparison

These two definitions follow claim C5's description of the experience
multiplier and final formula (NOT the source); they exist only to be
compared against `matchScore`. -/

/-- Modelled from the spec claim C5: multiplier ×0.7 iff the title is
senior-flavored and years < 3; ×1.2 iff entry-flavored and years ∈ [1,3];
×1.1 iff the title is NEITHER senior- nor entry-flavored and
years ∈ [1,4]; ×1.0 otherwise. -/
def specExpMultiplier (title : String) (years : Int) : ℚ :=
  if isSeniorB title && decide (years < 3) then 0.7
  else if isEntryB title && decide (1 ≤ years) && decide (years ≤ 3) then 1.2
  else if !isSeniorB title && !isEntryB title &&
          decide (1 ≤ years) && decide (years ≤ 4) then 1.1
  else 1

/-- Modelled from the spec claim C5: final score =
`clamp((lexical×0.35 + skill_overlap×0.40 + adjacency + title_bonus) ×
experience_multiplier, 0, 100)`, rounded to 2 decimals, with the
multiplier as the spec describes it. -/
def specMatchScore (cv : CVData) (tfidf : ℚ) (job : MJob) : ℚ :=
  round2 (max 0 (min (baseScoreOf cv tfidf job *
    specExpMultiplier (pyLower job.title) cv.yearsExperience) 100))

/-! ### Helper lemmas -/

lemma foldl_max_init (xs : List Int) (a b : Int) :
    xs.foldl max (max a b) = max a (xs.foldl max b) := by
  induction xs generalizing b with
  | nil => rfl
  | cons c cs ih =>
    rw [List.foldl_cons, List.foldl_cons, max_assoc]
    exact ih (max b c)

lemma le_foldl_max (xs : List Int) (b : Int) : b ≤ xs.foldl max b := by
  induction xs generalizing b with
  | nil => exact le_refl b
  | cons c cs ih => exact le_trans (le_max_left b c) (ih (max b c))

lemma ite_empty_max_foldl (y : Int) (m : List Int) :
    (if m.isEmpty then y else max y (maxList m)) = m.foldl max y := by
  cases m with
  | nil => simp
  | cons x xs =>
    simp only [List.isEmpty_cons, if_neg Bool.false_ne_true, maxList, List.foldl_cons]
    exact (foldl_max_init xs y x).symm

lemma dedupGo_mem {j : SJob} :
    ∀ {l : List SJob} {su sk : List String}, j ∈ dedupGo l su sk →
      j.url ≠ "" ∧ j.url ∉ su ∧ dedupKey j ∉ sk := by
  intro l
  induction l with
  | nil => intro su sk h; simp [dedupGo] at h
  | cons a rest ih =>
    intro su sk h
    simp only [dedupGo] at h
    split at h
    · next hc =>
      rcases List.mem_cons.mp h with rfl | hm
      · exact hc
      · obtain ⟨h1, h2, h3⟩ := ih hm
        exact ⟨h1, fun hs => h2 (List.mem_cons_of_mem _ hs),
          fun hs => h3 (List.mem_cons_of_mem _ hs)⟩
    · exact ih h

lemma dedupGo_sublist :
    ∀ (l : List SJob) (su sk : List String), (dedupGo l su sk).Sublist l := by
  intro l
  induction l with
  | nil => intro su sk; simp [dedupGo]
  | cons a rest ih =>
    intro su sk
    simp only [dedupGo]
    split
    · exact (ih _ _).cons₂ a
    · exact (ih su sk).cons a

lemma dedupGo_pairwise_url :
    ∀ (l : List SJob) (su sk : List String),
      (dedupGo l su sk).Pairwise (fun a b => a.url ≠ b.url) := by
  intro l
  induction l with
  | nil => intro su sk; simp [dedupGo]
  | cons a rest ih =>
    intro su sk
    simp only [dedupGo]
    split
    · refine List.pairwise_cons.mpr ⟨fun b hb => ?_, ih _ _⟩
      have := (dedupGo_mem hb).2.1
      exact fun he => this (he ▸ List.mem_cons_self _ _)
    · exact ih su sk

lemma dedupGo_pairwise_key :
    ∀ (l : List SJob) (su sk : List String),
      (dedupGo l su sk).Pairwise (fun a b => dedupKey a ≠ dedupKey b) := by
  intro l
  induction l with
  | nil => intro su sk; simp [dedupGo]
  | cons a rest ih =>
    intro su sk
    simp only [dedupGo]
    split
    · refine List.pairwise_cons.mpr ⟨fun b hb => ?_, ih _ _⟩
      have := (dedupGo_mem hb).2.2
      exact fun he => this (he ▸ List.mem_cons_self _ _)
    · exact ih su sk

lemma wrapFetch_toOption (o : Except String (List SJob)) :
    wrapFetch o = o.toOption.getD [] := by
  cases o <;> rfl

lemma skillScoreOf_nonneg (cv : CVData) (job : MJob) : 0 ≤ skillScoreOf cv job := by
  unfold skillScoreOf
  refine le_min ?_ (by norm_num)
  positivity

lemma skillScoreOf_le_100 (cv : CVData) (job : MJob) : skillScoreOf cv job ≤ 100 :=
  min_le_right _ _

lemma adjacencyBonusOf_nonneg (cv : CVData) (job : MJob) : 0 ≤ adjacencyBonusOf cv job := by
  unfold adjacencyBonusOf
  positivity

lemma titleBonusOf_nonneg (cv : CVData) (job : MJob) : 0 ≤ titleBonusOf cv job := by
  unfold titleBonusOf
  positivity

lemma baseScoreOf_nonneg (cv : CVData) (job : MJob) {tfidf : ℚ} (h : 0 ≤ tfidf) :
    0 ≤ baseScoreOf cv tfidf job := by
  unfold baseScoreOf
  have h1 := skillScoreOf_nonneg cv job
  have h2 := adjacencyBonusOf_nonneg cv job
  have h3 := titleBonusOf_nonneg cv job
  nlinarith

lemma expMultiplierOf_pos (t : String) (y : Int) : 0 < expMultiplierOf t y := by
  unfold expMultiplierOf
  split_ifs <;> norm_num

lemma expMultiplierOf_le (t : String) (y : Int) : expMultiplierOf t y ≤ 1.2 := by
  unfold expMultiplierOf
  split_ifs <;> norm_num

lemma round2_nonneg {q : ℚ} (h : 0 ≤ q) : 0 ≤ round2 q := by
  unfold round2
  have : (0 : ℤ) ≤ ⌊q * 100 + 0.5⌋ := by
    rw [Int.le_floor]
    push_cast
    nlinarith
  positivity

lemma round2_le_100 {q : ℚ} (h : q ≤ 100) : round2 q ≤ 100 := by
  unfold round2
  have hf : ⌊q * 100 + 0.5⌋ ≤ 10000 := by
    have : q * 100 + 0.5 ≤ 10000.5 := by nlinarith
    calc ⌊q * 100 + 0.5⌋ ≤ ⌊(10000.5 : ℚ)⌋ := Int.floor_le_floor this
      _ = 10000 := by norm_num [Int.floor_eq_iff]
  rw [div_le_iff₀ (by norm_num)]
  calc ((⌊q * 100 + 0.5⌋ : ℤ) : ℚ) ≤ (10000 : ℚ) := by exact_mod_cast hf
    _ = 100 * 100 := by norm_num

lemma mem_insertDesc {a r : Row} {l : List Row} :
    a ∈ insertDesc r l ↔ a = r ∨ a ∈ l := by
  induction l with
  | nil => simp [insertDesc]
  | cons x xs ih =>
    simp only [insertDesc]
    split
    · simp only [List.mem_cons, ih]
      tauto
    · simp only [List.mem_cons]

lemma length_insertDesc (r : Row) (l : List Row) :
    (insertDesc r l).length = l.length + 1 := by
  induction l with
  | nil => rfl
  | cons x xs ih =>
    simp only [insertDesc]
    split
    · simp [ih]
    · simp

lemma mem_sortByScoreDesc {a : Row} {l : List Row} :
    a ∈ sortByScoreDesc l ↔ a ∈ l := by
  induction l with
  | nil => simp [sortByScoreDesc]
  | cons x xs ih => simp [sortByScoreDesc, mem_insertDesc, ih]

lemma length_sortByScoreDesc (l : List Row) :
    (sortByScoreDesc l).length = l.length := by
  induction l with
  | nil => rfl
  | cons x xs ih => simp [sortByScoreDesc, length_insertDesc, ih]

lemma pairwise_insertDesc {r : Row} {l : List Row}
    (h : l.Pairwise (fun a b => b.score ≤ a.score)) :
    (insertDesc r l).Pairwise (fun a b => b.score ≤ a.score) := by
  induction l with
  | nil => simp [insertDesc]
  | cons x xs ih =>
    rw [List.pairwise_cons] at h
    obtain ⟨hx, hxs⟩ := h
    simp only [insertDesc]
    split
    · next hgt =>
      refine List.pairwise_cons.mpr ⟨fun b hb => ?_, ih hxs⟩
      rcases mem_insertDesc.mp hb with rfl | hbm
      · exact le_of_lt hgt
      · exact hx b hbm
    · next hng =>
      refine List.pairwise_cons.mpr
        ⟨fun b hb => ?_, List.pairwise_cons.mpr ⟨hx, hxs⟩⟩
      rcases List.mem_cons.mp hb with rfl | hbm
      · exact le_of_not_lt hng
      · exact le_trans (hx b hbm) (le_of_not_lt hng)

lemma sorted_sortByScoreDesc (l : List Row) :
    (sortByScoreDesc l).Pairwise (fun a b => b.score ≤ a.score) := by
  induction l with
  | nil => simp [sortByScoreDesc]
  | cons x xs ih => exact pairwise_insertDesc ih

lemma boostStage_ok_bounds {sk : Option (List String)} {rows out : List Row}
    (hok : boostStage sk rows = .ok out)
    (hb : ∀ r ∈ rows, 0 ≤ r.score ∧ r.score ≤ 100) :
    ∀ r ∈ out, 0 ≤ r.score ∧ r.score ≤ 100 := by
  cases sk with
  | none => cases hok; exact hb
  | some kws =>
    simp only [boostStage] at hok
    split at hok
    · cases hok; exact hb
    · split at hok
      · cases hok
        intro r hr
        rw [List.mem_map] at hr
        obtain ⟨r0, hr0, rfl⟩ := hr
        obtain ⟨h0, h100⟩ := hb r0 hr0
        dsimp only
        constructor
        · refine le_min ?_ (by norm_num)
          split_ifs <;> linarith
        · exact min_le_right _ _
      · exact absurd hok (by simp)

lemma boostStage_nil {sk : Option (List String)} {m1 : List Row}
    (h : boostStage sk [] = .ok m1) : m1 = [] := by
  cases sk with
  | none => cases h; rfl
  | some kws =>
    simp only [boostStage] at h
    split at h
    · cases h; rfl
    · split at h
      · cases h; rfl
      · exact absurd h (by simp)

lemma excludeStage_ok_mem {ek : List String} :
    ∀ {rows out : List Row}, excludeStage ek rows = .ok out → ∀ r ∈ out, r ∈ rows := by
  induction ek with
  | nil =>
    intro rows out h r hr
    cases h
    exact hr
  | cons kw0 rest ih =>
    intro rows out h r hr
    simp only [excludeStage] at h
    split at h
    · exact ih h r hr
    · split at h
      · exact (List.mem_filter.mp (ih h r hr)).1
      · exact absurd h (by simp)

lemma excludeStage_nil {ek : List String} {m2 : List Row}
    (h : excludeStage ek [] = .ok m2) : m2 = [] :=
  List.eq_nil_iff_forall_not_mem.mpr
    (fun a ha => (List.not_mem_nil a) (excludeStage_ok_mem h a ha))

lemma recencyStage_mem {maxDays : Int} {rows : List Row} :
    ∀ r ∈ recencyStage maxDays rows, r ∈ rows := by
  intro r hr
  simp only [recencyStage] at hr
  split at hr <;> exact (List.mem_filter.mp hr).1

lemma cascadeStage_mem {ms : ℚ} {rows : List Row} :
    ∀ r ∈ cascadeStage ms rows, r ∈ rows := by
  intro r hr
  simp only [cascadeStage] at hr
  split at hr
  · exact (List.mem_filter.mp hr).1
  · split at hr
    · exact (List.mem_filter.mp hr).1
    · split at hr
      · exact (List.mem_filter.mp hr).1
      · exact mem_sortByScoreDesc.mp (List.take_subset _ _ hr)

lemma cascadeStage_len5 {ms : ℚ} {rows : List Row} (h : 5 ≤ rows.length) :
    5 ≤ (cascadeStage ms rows).length := by
  simp only [cascadeStage]
  split
  · next h1 => exact h1
  · split
    · next h2 => exact h2
    · split
      · next h3 => exact h3
      · rw [nlargestRows, List.length_take, length_sortByScoreDesc]
        omega

lemma cascadeStage_small {rows : List Row} (ms : ℚ) (h : rows.length < 5) :
    cascadeStage ms rows = nlargestRows (min 20 rows.length) rows := by
  simp only [cascadeStage]
  rw [if_neg, if_neg, if_neg]
  · exact Nat.not_le.mpr (Nat.lt_of_le_of_lt (List.length_filter_le _ _) h)
  · exact Nat.not_le.mpr (Nat.lt_of_le_of_lt (List.length_filter_le _ _) h)
  · exact Nat.not_le.mpr (Nat.lt_of_le_of_lt (List.length_filter_le _ _) h)

lemma locationStage_bounds {rt : String} {rows : List Row}
    (hb : ∀ r ∈ rows, 0 ≤ r.score ∧ r.score ≤ 100) :
    ∀ r ∈ locationStage rt rows, -40 ≤ r.score ∧ r.score ≤ 130 := by
  intro r hr
  simp only [locationStage] at hr
  split at hr
  · rw [List.mem_map] at hr
    obtain ⟨r0, h0, rfl⟩ := hr
    obtain ⟨ha, hb'⟩ := hb r0 h0
    dsimp only
    constructor <;> split_ifs <;> linarith
  · split at hr
    · split at hr
      · have hm := (List.mem_filter.mp hr).1
        obtain ⟨ha, hb'⟩ := hb r hm
        exact ⟨by linarith, by linarith⟩
      · obtain ⟨ha, hb'⟩ := hb r hr
        exact ⟨by linarith, by linarith⟩
    · obtain ⟨ha, hb'⟩ := hb r hr
      exact ⟨by linarith, by linarith⟩

lemma locationStage_len5 {rt : String} {rows : List Row} (h : 5 ≤ rows.length) :
    5 ≤ (locationStage rt rows).length := by
  simp only [locationStage]
  split
  · rw [List.length_map]; exact h
  · split
    · split
      · next h5 => exact h5
      · exact h
    · exact h

lemma finalizeStage_length (rows : List Row) :
    (finalizeStage rows).length = rows.length := by
  simp [finalizeStage, length_sortByScoreDesc]

lemma finalizeStage_bounds {rows : List Row}
    (hlow : ∀ r ∈ rows, -40 ≤ r.score) :
    ∀ r ∈ finalizeStage rows, -40 ≤ r.score ∧ r.score ≤ 100 := by
  intro r hr
  simp only [finalizeStage] at hr
  rw [mem_sortByScoreDesc, List.mem_map] at hr
  obtain ⟨r0, h0, rfl⟩ := hr
  exact ⟨le_min (hlow r0 h0) (by norm_num), min_le_right _ _⟩

lemma applyAllFilters_ok_eq {rt : String} {rows : List Row} {d : Int} {ms : ℚ}
    {ek : List String} {sk : Option (List String)} {m1 m2 : List Row}
    (hne : rows.isEmpty = false)
    (h1 : boostStage sk rows = .ok m1) (h2 : excludeStage ek m1 = .ok m2) :
    applyAllFilters rt rows d ms ek sk =
      .ok (finalizeStage (locationStage rt (cascadeStage ms (recencyStage d m2)))) := by
  unfold applyAllFilters
  rw [if_neg (by simp [hne]), h1]
  dsimp only
  rw [h2]

lemma applyAllFilters_cases {rt : String} {rows : List Row} {d : Int} {ms : ℚ}
    {ek : List String} {sk : Option (List String)} {out : List Row}
    (h : applyAllFilters rt rows d ms ek sk = .ok out) :
    (rows = [] ∧ out = []) ∨
    ∃ m1 m2, boostStage sk rows = .ok m1 ∧ excludeStage ek m1 = .ok m2 ∧
      out = finalizeStage (locationStage rt
        (cascadeStage ms (recencyStage d m2))) := by
  unfold applyAllFilters at h
  split at h
  · next he =>
    have hnil : rows = [] := List.isEmpty_iff.mp he
    cases h
    exact Or.inl ⟨hnil, hnil⟩
  · split at h
    · exact absurd h (by simp)
    · next m1 hm1 =>
      split at h
      · exact absurd h (by simp)
      · next m2 hm2 =>
        cases h
        exact Or.inr ⟨m1, m2, hm1, hm2, rfl⟩

/-! ### Claim theorems -/

/-- C1, counterexample: two records with identical lowercased title and
company and blank urls.  The aggregator's dedup keeps NEITHER of them (it
requires a truthy url to keep any job), so "exactly one of them appears
in the output" fails: zero appear. -/
theorem dedup_counterexample :
    dedupJobs [⟨"Data Analyst", "Acme", "Remote", "", ""⟩,
               ⟨"Data Analyst", "Acme", "Remote", "other desc", ""⟩] = []
    ∧ (⟨"Data Analyst", "Acme", "Remote", "", ""⟩ : SJob).url = ""
    ∧ (⟨"Data Analyst", "Acme", "Remote", "other desc", ""⟩ : SJob).url = ""
    ∧ dedupKey ⟨"Data Analyst", "Acme", "Remote", "", ""⟩ =
      dedupKey ⟨"Data Analyst", "Acme", "Remote", "other desc", ""⟩ := by
  exact ⟨rfl, rfl, rfl, rfl⟩

/-- C1, amended: every job surviving dedup has a non-empty url, no two
surviving jobs share a url, no two share a lowercased title+company key,
and the output is a subsequence of the input.  In particular at most one
of two records with identical non-empty url survives, while records with
blank url are dropped entirely (there is no title+company fallback
identity for url-less jobs). -/
theorem dedup_amended (l : List SJob) :
    ((dedupJobs l).all fun j => j.url != "") = true
    ∧ (dedupJobs l).Pairwise (fun a b => a.url ≠ b.url)
    ∧ (dedupJobs l).Pairwise (fun a b => dedupKey a ≠ dedupKey b)
    ∧ (dedupJobs l).Sublist l := by
  refine ⟨?_, dedupGo_pairwise_url l [] [], dedupGo_pairwise_key l [] [],
    dedupGo_sublist l [] []⟩
  rw [List.all_eq_true]
  intro j hj
  exact bne_iff_ne.mpr (dedupGo_mem hj).1

/-- C4: the source's skill extraction uses raw substring matching, so on
"my career in retail" it DOES report the skill "r" (inside "career"),
contradicting the claim's word-boundary requirement; the claim's positive
half ("python" reported for "I use Python daily") does hold. -/
theorem skills_substring_bug :
    "r" ∈ extractComprehensiveSkills "my career in retail"
    ∧ "python" ∈ extractComprehensiveSkills "I use Python daily" := by
  constructor <;> decide

/-- C8: years-of-experience extraction equals the maximum of (a) the
largest `N` over all matches of the three explicit patterns and (b) the
sum of `end − start` over all date ranges, with the claim's three
worked examples. -/
theorem yearsExtraction_formula :
    (∀ text : String,
      extractYearsExperience text = max (yearsClauseA text) (yearsClauseB text))
    ∧ extractYearsExperience "5 years of experience" = 5
    ∧ extractYearsExperience "2015–2020" = 5
    ∧ extractYearsExperience "3 years experience and 2010–2020" = 10 := by
  refine ⟨fun text => ?_, by decide, by decide, by decide⟩
  simp only [extractYearsExperience, yearsClauseA, yearsClauseB,
    ite_empty_max_foldl, List.foldl_append]
  set m1 := findAllMatches matchP1 (pyLower text).toList with hm1
  set m2 := findAllMatches matchP2 (pyLower text).toList with hm2
  set m3 := findAllMatches matchP3 (pyLower text).toList with hm3
  set ranges := findAllMatches matchDateRange (pyLower text).toList with hr
  set y3 := m3.foldl max (m2.foldl max (m1.foldl max 0)) with hy3
  have hy3nn : (0 : Int) ≤ y3 := by
    calc (0 : Int) ≤ m1.foldl max 0 := le_foldl_max _ _
      _ ≤ m2.foldl max (m1.foldl max 0) := le_foldl_max _ _
      _ ≤ y3 := le_foldl_max _ _
  cases he : ranges.isEmpty with
  | true =>
    have : ranges = [] := List.isEmpty_iff.mp he
    simp [this, max_eq_left hy3nn]
  | false =>
    simp [he]

/-- C9: the aggregate call is a total function of the per-source
outcomes; it returns the dedup of the (optionally keyword-filtered) merge
of exactly the successful sources' results, and replacing any failed
source by an empty success changes nothing — failures are isolated and
never propagate. -/
theorem scrape_isolation (keywords : List String) (src : SourceOutcomes) :
    (scrapeAll keywords src =
      dedupJobs (if keywords.isEmpty then successMerge src
                 else keywordFilter keywords (successMerge src)))
    ∧ (∀ e, scrapeAll keywords { src with jobspy := .error e } =
        scrapeAll keywords { src with jobspy := .ok [] })
    ∧ (∀ e, scrapeAll keywords { src with remoteok := .error e } =
        scrapeAll keywords { src with remoteok := .ok [] })
    ∧ (∀ e, scrapeAll keywords { src with remotive := .error e } =
        scrapeAll keywords { src with remotive := .ok [] })
    ∧ (∀ e, scrapeAll keywords { src with jobicy := .error e } =
        scrapeAll keywords { src with jobicy := .ok [] })
    ∧ (∀ e, scrapeAll keywords { src with arbeitnow := .error e } =
        scrapeAll keywords { src with arbeitnow := .ok [] })
    ∧ (∀ e, scrapeAll keywords { src with himalayas := .error e } =
        scrapeAll keywords { src with himalayas := .ok [] })
    ∧ (∀ e, scrapeAll keywords { src with wwr := .error e } =
        scrapeAll keywords { src with wwr := .ok [] }) := by
  refine ⟨?_, fun e => rfl, fun e => rfl, fun e => rfl, fun e => rfl,
    fun e => rfl, fun e => rfl, fun e => rfl⟩
  cases h : keywords.isEmpty <;>
    simp [scrapeAll, successMerge, wrapFetch_toOption, h]

/-- C10: the exclusion stage concatenates the raw user keyword between
`\b` anchors without escaping; for the ordinary keyword "c++" the built
pattern `\bc++\b` is an invalid regex (a quantifier directly follows
another quantifier), so `apply_all_filters` raises instead of
filtering. -/
theorem exclude_regex_error :
    applyAllFilters "Worldwide (Anywhere)"
      [⟨"Senior C++ Developer", "Acme", "Remote", "", "u", 50, 0⟩]
      14 50 ["c++"] none = .error "re.error: invalid exclude pattern" := by
  rfl

/-- C5, counterexample: for the entry-flavored title "associate" with
years = 4 the source applies ×1.1 (its third branch tests only "not
senior-flavored"), while the claim's formula applies ×1.0; at lexical
score 40 the two final scores differ (15.4 vs 14). -/
theorem scoring_multiplier_counterexample :
    matchScore ⟨[], "", 4⟩ 40 ⟨"associate", ""⟩ = 77 / 5
    ∧ specMatchScore ⟨[], "", 4⟩ 40 ⟨"associate", ""⟩ = 14
    ∧ (77 / 5 : ℚ) ≠ 14 := by
  refine ⟨by with_unfolding_all decide, by with_unfolding_all decide, by norm_num⟩

/-- C5, amended: the final score is
`clamp(base × multiplier, 0, 100)` rounded to two decimals (the lower
clamp being vacuous as the base is nonnegative), where the multiplier is
×0.7 when the title is senior-flavored and years < 3; else ×1.2 when
entry-flavored and years ∈ [1,3]; else ×1.1 whenever the title is NOT
senior-flavored (entry-flavored or not) and years ∈ [1,4]; else ×1.0.
In particular an entry-flavored title with years = 4 gets ×1.1. -/
theorem scoring_formula_amended (cv : CVData) (tfidf : ℚ) (job : MJob)
    (h : 0 ≤ tfidf) :
    matchScore cv tfidf job = round2 (max 0 (min (baseScoreOf cv tfidf job *
      expMultiplierOf (pyLower job.title) cv.yearsExperience) 100))
    ∧ ∀ (t : String) (y : Int), expMultiplierOf t y =
        if isSeniorB t = true ∧ y < 3 then 0.7
        else if isEntryB t = true ∧ 1 ≤ y ∧ y ≤ 3 then 1.2
        else if isSeniorB t = false ∧ 1 ≤ y ∧ y ≤ 4 then 1.1
        else 1 := by
  constructor
  · have hb := baseScoreOf_nonneg cv job h
    have hm := (expMultiplierOf_pos (pyLower job.title) cv.yearsExperience).le
    have h0 : 0 ≤ min (baseScoreOf cv tfidf job *
        expMultiplierOf (pyLower job.title) cv.yearsExperience) 100 :=
      le_min (mul_nonneg hb hm) (by norm_num)
    rw [matchScore, max_eq_right h0]
  · intro t y
    unfold expMultiplierOf
    simp only [Bool.and_eq_true, decide_eq_true_eq, Bool.not_eq_true', and_assoc]

/-- Witness for `scoring_formula_amended` at a concrete input. -/
theorem scoring_formula_amended_witness :
    (0 : ℚ) ≤ 40 ∧
    (matchScore ⟨[], "", 4⟩ 40 ⟨"associate", ""⟩ =
        round2 (max 0 (min (baseScoreOf ⟨[], "", 4⟩ 40 ⟨"associate", ""⟩ *
          expMultiplierOf (pyLower "associate") (4 : Int)) 100))
      ∧ ∀ (t : String) (y : Int), expMultiplierOf t y =
          if isSeniorB t = true ∧ y < 3 then 0.7
          else if isEntryB t = true ∧ 1 ≤ y ∧ y ≤ 3 then 1.2
          else if isSeniorB t = false ∧ 1 ≤ y ∧ y ≤ 4 then 1.1
          else 1) :=
  ⟨by norm_num, scoring_formula_amended ⟨[], "", 4⟩ 40 ⟨"associate", ""⟩ (by norm_num)⟩

/-- C2, counterexample: a job scoring 20 with location "New York, NY"
under the worldwide preference reaches the location stage (via the
threshold cascade's top-20 fallback), receives the −40 penalty, and is
returned with match score −20: the final clamp caps only the upper bound,
so the score IS negative after the filter stage. -/
theorem scoreBounds_counterexample :
    applyAllFilters "Worldwide (Anywhere)"
      [⟨"Data Analyst", "Acme", "New York, NY", "", "u1", 20, 0⟩]
      14 50 [] none
    = .ok [⟨"Data Analyst", "Acme", "New York, NY", "", "u1", -20, 0⟩]
    ∧ (-20 : ℚ) < 0 := by
  exact ⟨by with_unfolding_all rfl, by norm_num⟩

/-- C2, amended: the scorer's output lies in [0, 100] (for a nonnegative
lexical similarity input), and every returned score is at most 100; but
the location-scope penalty can push scores below 0 and no stage restores
the lower bound, so for input scores in [0, 100] the returned scores lie
in [−40, 100] — not [0, 100]. -/
theorem scoreBounds_amended :
    (∀ (cv : CVData) (tfidf : ℚ) (job : MJob), 0 ≤ tfidf →
      0 ≤ matchScore cv tfidf job ∧ matchScore cv tfidf job ≤ 100)
    ∧ (∀ (rt : String) (rows : List Row) (d : Int) (ms : ℚ) (ek : List String)
        (sk : Option (List String)) (out : List Row),
        applyAllFilters rt rows d ms ek sk = .ok out →
        (∀ r ∈ rows, 0 ≤ r.score ∧ r.score ≤ 100) →
        ∀ r ∈ out, -40 ≤ r.score ∧ r.score ≤ 100) := by
  constructor
  · intro cv tfidf job h
    have hb := baseScoreOf_nonneg cv job h
    have hm := (expMultiplierOf_pos (pyLower job.title) cv.yearsExperience).le
    have h0 : 0 ≤ min (baseScoreOf cv tfidf job *
        expMultiplierOf (pyLower job.title) cv.yearsExperience) 100 :=
      le_min (mul_nonneg hb hm) (by norm_num)
    exact ⟨round2_nonneg h0, round2_le_100 (min_le_right _ _)⟩
  · intro rt rows d ms ek sk out hok hin
    rcases applyAllFilters_cases hok with ⟨_, rfl⟩ | ⟨m1, m2, h1, h2, rfl⟩
    · intro r hr
      exact absurd hr (List.not_mem_nil r)
    · have hb1 : ∀ r ∈ m1, 0 ≤ r.score ∧ r.score ≤ 100 :=
        boostStage_ok_bounds h1 hin
      have hb2 : ∀ r ∈ m2, 0 ≤ r.score ∧ r.score ≤ 100 :=
        fun r hr => hb1 r (excludeStage_ok_mem h2 r hr)
      have hb3 : ∀ r ∈ recencyStage d m2, 0 ≤ r.score ∧ r.score ≤ 100 :=
        fun r hr => hb2 r (recencyStage_mem r hr)
      have hb4 : ∀ r ∈ cascadeStage ms (recencyStage d m2),
          0 ≤ r.score ∧ r.score ≤ 100 :=
        fun r hr => hb3 r (cascadeStage_mem r hr)
      have hb5 := @locationStage_bounds rt _ hb4
      exact finalizeStage_bounds (fun r hr => (hb5 r hr).1)

/-- Witness for `scoreBounds_amended` at concrete inputs: the scorer value
for an empty profile and the filter output of the C2 pipeline run. -/
theorem scoreBounds_amended_witness :
    ((0 : ℚ) ≤ matchScore ⟨[], "", 0⟩ 50 ⟨"Writer", ""⟩
      ∧ matchScore ⟨[], "", 0⟩ 50 ⟨"Writer", ""⟩ ≤ 100)
    ∧ (-40 ≤ (⟨"Data Analyst", "Acme", "New York, NY", "", "u1", (-20 : ℚ), 0⟩ : Row).score
      ∧ (⟨"Data Analyst", "Acme", "New York, NY", "", "u1", (-20 : ℚ), 0⟩ : Row).score ≤ 100) :=
  ⟨scoreBounds_amended.1 ⟨[], "", 0⟩ 50 ⟨"Writer", ""⟩ (by norm_num),
   scoreBounds_amended.2 "Worldwide (Anywhere)"
     [⟨"Data Analyst", "Acme", "New York, NY", "", "u1", 20, 0⟩] 14 50 [] none
     [⟨"Data Analyst", "Acme", "New York, NY", "", "u1", -20, 0⟩]
     (by with_unfolding_all rfl)
     (by
       intro r hr
       rw [List.mem_singleton] at hr
       subst hr
       exact ⟨by norm_num, by norm_num⟩)
     _ (List.mem_singleton.mpr rfl)⟩

/-- C3: if at least 5 jobs survive the recency stage, `apply_all_filters`
returns at least 5 jobs: the threshold cascade never leaves fewer than 5
survivors when it starts from at least 5 (its last fallback takes
`min(20, n)` rows), the USA-only restriction is fail-open below 5, the
worldwide adjustment only rescores, and the final clamp-and-sort keeps
the count. -/
theorem relaxation_nonempty (rt : String) (rows : List Row) (d : Int) (ms : ℚ)
    (ek : List String) (sk : Option (List String)) (m1 m2 out : List Row)
    (h1 : boostStage sk rows = .ok m1) (h2 : excludeStage ek m1 = .ok m2)
    (hrec : 5 ≤ (recencyStage d m2).length)
    (hout : applyAllFilters rt rows d ms ek sk = .ok out) :
    5 ≤ out.length := by
  rcases applyAllFilters_cases hout with ⟨hnil, rfl⟩ | ⟨m1', m2', h1', h2', rfl⟩
  · subst hnil
    have hm1 : m1 = [] := boostStage_nil h1
    subst hm1
    have hm2 : m2 = [] := excludeStage_nil h2
    subst hm2
    simp [recencyStage] at hrec
  · rw [h1] at h1'
    injection h1' with e1
    subst e1
    rw [h2] at h2'
    injection h2' with e2
    subst e2
    rw [finalizeStage_length]
    exact locationStage_len5 (cascadeStage_len5 hrec)

/-- Witness for `relaxation_nonempty`: five jobs passing recency with
score 50 under threshold 50; all five are returned. -/
theorem relaxation_nonempty_witness :
    5 ≤ ([⟨"T1", "C", "Remote", "", "u1", (50 : ℚ), 0⟩,
          ⟨"T2", "C", "Remote", "", "u2", (50 : ℚ), 0⟩,
          ⟨"T3", "C", "Remote", "", "u3", (50 : ℚ), 0⟩,
          ⟨"T4", "C", "Remote", "", "u4", (50 : ℚ), 0⟩,
          ⟨"T5", "C", "Remote", "", "u5", (50 : ℚ), 0⟩] : List Row).length :=
  relaxation_nonempty "All Remote"
    [⟨"T1", "C", "Remote", "", "u1", 50, 0⟩, ⟨"T2", "C", "Remote", "", "u2", 50, 0⟩,
     ⟨"T3", "C", "Remote", "", "u3", 50, 0⟩, ⟨"T4", "C", "Remote", "", "u4", 50, 0⟩,
     ⟨"T5", "C", "Remote", "", "u5", 50, 0⟩]
    14 50 [] none _ _ _ rfl rfl
    (by with_unfolding_all decide)
    (by with_unfolding_all rfl)

/-- C6, counterexample: input order is the "berlin" job (score 10) before
the "New York, NY" job (score 50); the cascade's top-20 fallback reorders
by pre-adjustment score and the worldwide −40 penalty then equalizes both
scores at 10, so the output holds two jobs with EQUAL match score in the
OPPOSITE of their input order — the stable-tie-break claim fails even
granting pandas a stable sort. -/
theorem sortStability_counterexample :
    applyAllFilters "Worldwide (Anywhere)"
      [⟨"B title", "B Co", "berlin", "", "u2", 10, 0⟩,
       ⟨"A title", "A Co", "New York, NY", "", "u3", 50, 0⟩] 14 50 [] none
    = .ok [⟨"A title", "A Co", "New York, NY", "", "u3", 10, 0⟩,
           ⟨"B title", "B Co", "berlin", "", "u2", 10, 0⟩]
    ∧ (⟨"A title", "A Co", "New York, NY", "", "u3", (10 : ℚ), 0⟩ : Row).score =
      (⟨"B title", "B Co", "berlin", "", "u2", (10 : ℚ), 0⟩ : Row).score := by
  exact ⟨by with_unfolding_all rfl, rfl⟩

/-- C6, amended: the returned list IS sorted by match score in descending
order; but equal-score ties need not preserve the input order (see the
counterexample; pandas' default quicksort additionally leaves tie order
unspecified). -/
theorem sortedDescending_amended (rt : String) (rows : List Row) (d : Int)
    (ms : ℚ) (ek : List String) (sk : Option (List String)) (out : List Row)
    (h : applyAllFilters rt rows d ms ek sk = .ok out) :
    out.Pairwise (fun a b => b.score ≤ a.score) := by
  rcases applyAllFilters_cases h with ⟨_, rfl⟩ | ⟨m1, m2, _, _, rfl⟩
  · simp
  · exact sorted_sortByScoreDesc _

/-- Witness for `sortedDescending_amended` on a concrete two-job run. -/
theorem sortedDescending_amended_witness :
    ([⟨"High", "C", "Remote", "", "u1", (80 : ℚ), 0⟩,
      ⟨"Low", "C", "Remote", "", "u2", (30 : ℚ), 0⟩] : List Row).Pairwise
      (fun a b => b.score ≤ a.score) :=
  sortedDescending_amended "All Remote"
    [⟨"Low", "C", "Remote", "", "u2", 30, 0⟩,
     ⟨"High", "C", "Remote", "", "u1", 80, 0⟩] 14 10 [] none
    [⟨"High", "C", "Remote", "", "u1", 80, 0⟩,
     ⟨"Low", "C", "Remote", "", "u2", 30, 0⟩]
    (by with_unfolding_all rfl)

/-- C7, counterexample: with shared pre-adjustment score 90 the worldwide
job's +30 boost saturates at the final 100 cap (90 + 30 ↦ 100) while the
"New York, NY" job ends at 50, a gap of only 50 — "at least 70 points
lower" fails for scores above 70. -/
theorem locationScope_counterexample :
    applyAllFilters "Worldwide (Anywhere)"
      [⟨"T", "C", "New York, NY", "D", "u", 90, 0⟩,
       ⟨"T", "C", "Remote - Worldwide", "D", "u", 90, 0⟩] 14 50 [] none
    = .ok [⟨"T", "C", "Remote - Worldwide", "D", "u", 100, 0⟩,
           ⟨"T", "C", "New York, NY", "D", "u", 50, 0⟩]
    ∧ (100 : ℚ) - 50 < 70 := by
  exact ⟨by with_unfolding_all rfl, by norm_num⟩

/-- C7, amended: under the worldwide preference, for two otherwise
identical jobs with common pre-adjustment score `s ≤ 70`, the
"Remote - Worldwide" job ends at `s + 30` and the "New York, NY" job at
`s - 40` — exactly 70 points lower (for `s > 70` the boost saturates at
the 100 cap and the gap shrinks to `140 − s`). -/
theorem locationScope_amended (s ms : ℚ) (h0 : 0 ≤ s) (h70 : s ≤ 70) :
    applyAllFilters "Worldwide (Anywhere)"
      [⟨"T", "C", "New York, NY", "D", "u", s, 0⟩,
       ⟨"T", "C", "Remote - Worldwide", "D", "u", s, 0⟩] 14 ms [] none
    = .ok [⟨"T", "C", "Remote - Worldwide", "D", "u", s + 30, 0⟩,
           ⟨"T", "C", "New York, NY", "D", "u", s - 40, 0⟩]
    ∧ (s + 30) - (s - 40) = 70 := by
  refine ⟨?_, by ring⟩
  rw [@applyAllFilters_ok_eq "Worldwide (Anywhere)"
      [⟨"T", "C", "New York, NY", "D", "u", s, 0⟩,
       ⟨"T", "C", "Remote - Worldwide", "D", "u", s, 0⟩] 14 ms [] none
      [⟨"T", "C", "New York, NY", "D", "u", s, 0⟩,
       ⟨"T", "C", "Remote - Worldwide", "D", "u", s, 0⟩]
      [⟨"T", "C", "New York, NY", "D", "u", s, 0⟩,
       ⟨"T", "C", "Remote - Worldwide", "D", "u", s, 0⟩] rfl rfl rfl]
  have hrec : recencyStage 14
      [⟨"T", "C", "New York, NY", "D", "u", s, 0⟩,
       ⟨"T", "C", "Remote - Worldwide", "D", "u", s, 0⟩] =
      [⟨"T", "C", "New York, NY", "D", "u", s, 0⟩,
       ⟨"T", "C", "Remote - Worldwide", "D", "u", s, 0⟩] := rfl
  rw [hrec]
  have hcas : cascadeStage ms
      [⟨"T", "C", "New York, NY", "D", "u", s, 0⟩,
       ⟨"T", "C", "Remote - Worldwide", "D", "u", s, 0⟩] =
      [⟨"T", "C", "New York, NY", "D", "u", s, 0⟩,
       ⟨"T", "C", "Remote - Worldwide", "D", "u", s, 0⟩] := by
    rw [cascadeStage_small ms (by norm_num)]
    simp only [nlargestRows, sortByScoreDesc, insertDesc]
    rw [if_neg (lt_irrefl s)]
    rfl
  rw [hcas]
  have hloc : locationStage "Worldwide (Anywhere)"
      [⟨"T", "C", "New York, NY", "D", "u", s, 0⟩,
       ⟨"T", "C", "Remote - Worldwide", "D", "u", s, 0⟩] =
      [⟨"T", "C", "New York, NY", "D", "u", s + 0 - 40, 0⟩,
       ⟨"T", "C", "Remote - Worldwide", "D", "u", s + 30 - 0, 0⟩] := rfl
  rw [hloc, show s + 0 - 40 = s - 40 from by ring,
    show s + 30 - 0 = s + 30 from by ring]
  have hfin : finalizeStage
      [⟨"T", "C", "New York, NY", "D", "u", s - 40, 0⟩,
       ⟨"T", "C", "Remote - Worldwide", "D", "u", s + 30, 0⟩] =
      [⟨"T", "C", "Remote - Worldwide", "D", "u", s + 30, 0⟩,
       ⟨"T", "C", "New York, NY", "D", "u", s - 40, 0⟩] := by
    simp only [finalizeStage, List.map]
    rw [show min (s - 40) 100 = s - 40 from min_eq_left (by linarith),
      show min (s + 30) 100 = s + 30 from min_eq_left (by linarith)]
    simp only [sortByScoreDesc, insertDesc]
    rw [if_pos (show s - 40 < s + 30 from by linarith)]
  rw [hfin]

/-- Witness for `locationScope_amended` at `s = 50`, `min_score = 50`:
the worldwide job ends at 80, the New York job at 10, exactly 70 apart. -/
theorem locationScope_amended_witness :
    (0 : ℚ) ≤ 50 ∧ (50 : ℚ) ≤ 70 ∧
    (applyAllFilters "Worldwide (Anywhere)"
      [⟨"T", "C", "New York, NY", "D", "u", 50, 0⟩,
       ⟨"T", "C", "Remote - Worldwide", "D", "u", 50, 0⟩] 14 50 [] none
    = .ok [⟨"T", "C", "Remote - Worldwide", "D", "u", (50 : ℚ) + 30, 0⟩,
           ⟨"T", "C", "New York, NY", "D", "u", (50 : ℚ) - 40, 0⟩]
    ∧ ((50 : ℚ) + 30) - ((50 : ℚ) - 40) = 70) :=
  ⟨by norm_num, by norm_num,
   locationScope_amended 50 50 (by norm_num) (by norm_num)⟩

end JobHunter
